import Mathlib

set_option linter.unusedVariables false
set_option linter.unnecessarySeqFocus false
set_option maxRecDepth 8000

/-! Shallow embedding of the F007TH 433MHz monitor sketch (src/F007THv2.ino):
the resolved-bit pipeline (header detection and frame assembly, `loop` case 4
together with `add`), frame field extraction and the sensor gate (completion
block of `add`), and the per-channel validator / rate limiter `saveReading`.
Machine bytes and 32-bit unsigned values are modelled as `Nat` with explicit
`% 256` / `% 2 ^ 32`; C `int` values as `Int`; the C `float` temperature
conversion as exact rationals. -/

/-- Bit-level receiver state: the sketch globals `firstZero`, `headerHits`,
`dataByte`, `nosBits`, `nosBytes` and the 7-byte array `manchester`, the
latter modelled as a total function on `Nat` so that any out-of-bounds write
would be expressible. -/
structure RxState where
  firstZero : Bool
  headerHits : Nat
  dataByte : Nat
  nosBits : Nat
  nosBytes : Nat
  manchester : Nat → Nat

/-- State reinitialisation of `loop` case 0 (lines 178-184): `firstZero`,
`headerHits`, `nosBits`, `nosBytes` are reset; `dataByte` and the
`manchester` array persist across frame attempts. Case 0 is reached only by
paths that `break` out of case 4 with `rxstate = 0` (the premature-zero
path, lines 242-244) or by a timing error in case 2; the `rxstate = 0`
written inside `add` on frame completion is clobbered by line 252 and never
reaches case 0. -/
def resetSync (s : RxState) : RxState :=
  { s with firstZero := false, headerHits := 0, nosBits := 6, nosBytes := 0 }

def bit2nat (b : Bool) : Nat := if b then 1 else 0

/-- The six bytes `manchester[0] .. manchester[5]` read out as the completed
frame (`maxBytes = 6`; the checksum byte is never stored). -/
def frameBytes (m : Nat → Nat) : List Nat := [m 0, m 1, m 2, m 3, m 4, m 5]

/-- `add` (lines 259-292), bit accumulation and completion check: shift the
bit into `dataByte` (an 8-bit byte), store a completed byte at
`manchester[nosBytes]`, and whenever `nosBytes == maxBytes` run the
completion block (reported here as the emitted frame). The `rxstate = 0`
written inside `add` on completion (line 271) is clobbered by the
unconditional `rxstate = 1` at the end of `loop` case 4 (line 252), so no
counter is reinitialised by a completed frame: the completion block re-runs
on every following bit while `nosBytes` stays 6, and the byte counter keeps
growing past the frame. -/
def add (s : RxState) (bitData : Bool) : RxState × Option (List Nat) :=
  let db := (2 * s.dataByte + bit2nat bitData) % 256
  let s1 :=
    if (s.nosBits + 1) % 256 = 8 then
      { s with dataByte := db, nosBits := 0,
               manchester := Function.update s.manchester s.nosBytes db,
               nosBytes := (s.nosBytes + 1) % 256 }
    else
      { s with dataByte := db, nosBits := (s.nosBits + 1) % 256 }
  if s1.nosBytes = 6 then (s1, some (frameBytes s1.manchester))
  else (s1, none)

/-- One resolved bit processed, `loop` case 4 (lines 225-253): a one while
still in the header phase counts a header hit (`headerHits` is a byte, hence
`% 256`); a zero before `headerBits = 10` hits resets the synchronizer; the
first zero after a full header enters payload phase and is itself appended;
every payload-phase bit goes to `add`. -/
def processBit (s : RxState) (b : Bool) : RxState × Option (List Nat) :=
  if b then
    if s.firstZero then add s b
    else ({ s with headerHits := (s.headerHits + 1) % 256 }, none)
  else
    if s.headerHits < 10 then (resetSync s, none)
    else add { s with firstZero := true } b

/-- Feed a list of resolved bits, collecting the completed frames in order. -/
def runBits : RxState → List Bool → RxState × List (List Nat)
  | s, [] => (s, [])
  | s, b :: bs =>
    let p := processBit s b
    let r := runBits p.1 bs
    (r.1, p.2.toList ++ r.2)

/-- Receiver state at program start: global initialisers (lines 88-104) plus
`eraseManchester` called from `setup` (stores `j` at `manchester[j]` for
`j < 4`; the remaining cells are zero-initialised globals). -/
def initRx : RxState :=
  { firstZero := false, headerHits := 0, dataByte := 0, nosBits := 6, nosBytes := 0,
    manchester := fun j => if j < 4 then j else 0 }

/-- Per-channel stored state: arrays `chTemp`, `chHum`, `chLastRecv`
(lines 114-116), indexed 0-7. -/
structure ChState where
  chTemp : Nat → Int
  chHum : Nat → Int
  chLastRecv : Nat → Nat

/-- Channel state after `setup` (lines 141-143): every `chTemp` cell holds the
sentinel 720, humidity and last-send time are zero. -/
def initCh : ChState :=
  { chTemp := fun _ => 720, chHum := fun _ => 0, chLastRecv := fun _ => 0 }

/-- The triple handed to the reading sink on a forward (lines 328-345):
1-indexed channel number, converted Celsius temperature, raw humidity. -/
structure Output where
  channel : Int
  tempC : Rat
  hum : Int
deriving DecidableEq

/-- 32-bit unsigned subtraction, the C expression `now - chLastRecv[stnId]`
on `unsigned long`, for operands below `2 ^ 32`. -/
def usub32 (a b : Nat) : Nat := (a + 2 ^ 32 - b) % 2 ^ 32

/-- Acceptance condition of `saveReading` (lines 301-317): the sentinel 720
accepts unconditionally as first reading; otherwise both deltas must lie
strictly inside the plausibility windows. -/
def sendCond (ch : ChState) (i : Nat) (newTemp newHum : Int) : Prop :=
  ch.chTemp i = 720 ∨
    ((newTemp - ch.chTemp i < 20 ∧ newTemp - ch.chTemp i > -20) ∧
     (newHum - ch.chHum i < 5 ∧ newHum - ch.chHum i > -5))

instance (ch : ChState) (i : Nat) (t h : Int) : Decidable (sendCond ch i t h) := by
  unfold sendCond; exact inferInstance

/-- `saveReading` (lines 294-348): bounds-check the channel id; on acceptance
store temperature and humidity; forward to the sink only if additionally the
stored last-send time is in the future or more than 1000 ms have elapsed
(unsigned 32-bit arithmetic), and only then update `chLastRecv`. -/
def saveReading (ch : ChState) (stnId newTemp newHum : Int) (now : Nat) :
    ChState × Option Output :=
  if 0 ≤ stnId ∧ stnId ≤ 7 then
    let i := stnId.toNat
    let ch1 :=
      if sendCond ch i newTemp newHum then
        { ch with chTemp := Function.update ch.chTemp i newTemp,
                  chHum := Function.update ch.chHum i newHum }
      else ch
    if sendCond ch i newTemp newHum ∧
        (ch1.chLastRecv i > now ∨ usub32 now (ch1.chLastRecv i) > 1000) then
      ({ ch1 with chLastRecv := Function.update ch1.chLastRecv i now },
       some { channel := stnId + 1, tempC := 556 / 10000 * ((newTemp : Rat) - 720),
              hum := newHum })
    else (ch1, none)
  else (ch, none)

/-- Channel id extraction, `(manchester[3] & B01110000) / 16` (line 275). -/
def stnIdOf (m : List Nat) : Nat := (m.getD 3 0 &&& 112) / 16

/-- Raw temperature extraction, `(manchester[3] & B00000111) * 256 +
manchester[4]` (line 281; the `float` cast is exact on this range). -/
def newtempOf (m : List Nat) : Nat := (m.getD 3 0 &&& 7) * 256 + m.getD 4 0

/-- Raw humidity extraction, `manchester[5]` (line 284). -/
def newhumOf (m : List Nat) : Nat := m.getD 5 0

/-- Completion block of `add` (lines 274-290): extract the fields, gate on
sensor id `0x45` and humidity at most 100, and hand the reading to
`saveReading`; any other frame is dropped with no effect. -/
def frameHandle (ch : ChState) (m : List Nat) (now : Nat) : ChState × Option Output :=
  if m.getD 1 0 = 0x45 ∧ newhumOf m ≤ 100 then
    saveReading ch (stnIdOf m) (newtempOf m) (newhumOf m) now
  else (ch, none)

/-- Rendering of the converted temperature with one decimal of precision, as
the display sink does via `dtostrf(siTemp, 2, 1, tempstr)` (line 341):
rounding to the nearest tenth. -/
def round1Dec (q : Rat) : Rat := ((round (10 * q) : Int) : Rat) / 10

/-- MSB-first packing of a bit list onto accumulator `a`, no byte wrap. -/
def packAcc (a : Nat) (bs : List Bool) : Nat :=
  bs.foldl (fun x b => 2 * x + bit2nat b) a

/-- MSB-first packing with the byte wrap `dataByte` undergoes in `add`. -/
def packModAcc (a : Nat) (bs : List Bool) : Nat :=
  bs.foldl (fun x b => (2 * x + bit2nat b) % 256) a

/-- The frame the code actually assembles from a valid header run, given the
accumulator residue `d` (value of `dataByte` at the boundary zero) and the
payload bits `p` following the zero: byte 0 holds six stale accumulator bits,
the boundary zero and the first payload bit; bytes 1-5 hold the next 40
payload bits, 8 each, MSB first. -/
def assembledFrame (d : Nat) (p : List Bool) : List Nat :=
  [(4 * d + bit2nat (p.getD 0 false)) % 256,
   packAcc 0 ((p.drop 1).take 8),
   packAcc 0 ((p.drop 9).take 8),
   packAcc 0 ((p.drop 17).take 8),
   packAcc 0 ((p.drop 25).take 8),
   packAcc 0 ((p.drop 33).take 8)]

/-- Test fixture: a channel table whose every channel has already received a
baseline reading of raw temperature 1000 and humidity 50. -/
def chExample : ChState :=
  { chTemp := fun _ => 1000, chHum := fun _ => 50, chLastRecv := fun _ => 0 }

/-- Test fixture: the sink triple produced for channel 0, raw temperature
1099, humidity 11. -/
def outEx : Output :=
  { channel := 1, tempC := 556 / 10000 * (((1099 : Int) : Rat) - 720), hum := 11 }

/-! ### Packing and run helper lemmas -/

theorem bit2nat_le_one (b : Bool) : bit2nat b ≤ 1 := by
  cases b <;> simp [bit2nat]

theorem mul_mod_add_mod (x y z m : Nat) :
    (x * (y % m) + z) % m = (x * y + z) % m :=
  ((Nat.ModEq.refl x).mul (Nat.mod_modEq y m)).add_right z

theorem packAcc_nil (a : Nat) : packAcc a [] = a := rfl

theorem packAcc_cons (a : Nat) (b : Bool) (bs : List Bool) :
    packAcc a (b :: bs) = packAcc (2 * a + bit2nat b) bs := rfl

theorem packAcc_shift (bs : List Bool) : ∀ a : Nat,
    packAcc a bs = 2 ^ bs.length * a + packAcc 0 bs := by
  induction bs with
  | nil => intro a; simp [packAcc]
  | cons b bs ih =>
    intro a
    rw [packAcc_cons, ih, packAcc_cons, ih (2 * 0 + bit2nat b)]
    simp [List.length_cons]
    ring

theorem packAcc_lt (bs : List Bool) : packAcc 0 bs < 2 ^ bs.length := by
  induction bs with
  | nil => simp [packAcc]
  | cons b bs ih =>
    rw [packAcc_cons, packAcc_shift]
    have h1 : 2 ^ bs.length * (2 * 0 + bit2nat b) ≤ 2 ^ bs.length * 1 :=
      Nat.mul_le_mul_left _ (by have := bit2nat_le_one b; omega)
    rw [List.length_cons, pow_succ]
    omega

theorem packModAcc_cons (a : Nat) (b : Bool) (bs : List Bool) :
    packModAcc a (b :: bs) = packModAcc ((2 * a + bit2nat b) % 256) bs := rfl

theorem packModAcc_eq (bs : List Bool) : ∀ a : Nat, a < 256 →
    packModAcc a bs = (2 ^ bs.length * a + packAcc 0 bs) % 256 := by
  induction bs with
  | nil =>
    intro a ha
    simp [packModAcc, packAcc, Nat.mod_eq_of_lt ha]
  | cons b bs ih =>
    intro a ha
    rw [packModAcc_cons, ih _ (Nat.mod_lt _ (by norm_num)), mul_mod_add_mod]
    congr 1
    rw [packAcc_cons, packAcc_shift bs (2 * 0 + bit2nat b), List.length_cons, pow_succ]
    ring

theorem packModAcc_byte (bs : List Bool) (a : Nat) (ha : a < 256)
    (hl : bs.length = 8) : packModAcc a bs = packAcc 0 bs := by
  rw [packModAcc_eq bs a ha, hl]
  have h1 : packAcc 0 bs < 256 := by
    have := packAcc_lt bs
    rw [hl] at this
    norm_num at this
    exact this
  have : (2 ^ 8 * a + packAcc 0 bs) % 256 = packAcc 0 bs % 256 := by
    norm_num
    omega
  rw [this, Nat.mod_eq_of_lt h1]

theorem packModAcc_append (a : Nat) (xs ys : List Bool) :
    packModAcc a (xs ++ ys) = packModAcc (packModAcc a xs) ys := by
  simp [packModAcc, List.foldl_append]

theorem runBits_nil (s : RxState) : runBits s [] = (s, []) := rfl

theorem runBits_cons (s : RxState) (b : Bool) (bs : List Bool) :
    runBits s (b :: bs) =
      ((runBits (processBit s b).1 bs).1,
       (processBit s b).2.toList ++ (runBits (processBit s b).1 bs).2) := rfl

theorem runBits_append (xs : List Bool) : ∀ (s : RxState) (ys : List Bool),
    runBits s (xs ++ ys) =
      ((runBits (runBits s xs).1 ys).1,
       (runBits s xs).2 ++ (runBits (runBits s xs).1 ys).2) := by
  induction xs with
  | nil => intro s ys; simp [runBits_nil]
  | cons b bs ih =>
    intro s ys
    rw [List.cons_append, runBits_cons, runBits_cons, ih]
    simp [List.append_assoc]

/-! ### Phase lemmas for the bit pipeline -/

theorem firstZero_set_eq (s : RxState) (h : s.firstZero = true) :
    ({ s with firstZero := true } : RxState) = s := by
  cases s
  simp_all

theorem processBit_payload (s : RxState) (b : Bool) (h1 : s.firstZero = true)
    (h2 : 10 ≤ s.headerHits) : processBit s b = add s b := by
  cases b with
  | true => simp [processBit, h1]
  | false =>
    have h3 : ¬ s.headerHits < 10 := by omega
    simp [processBit, h3, firstZero_set_eq s h1]

theorem runBits_header (n : Nat) : ∀ s : RxState, s.firstZero = false →
    s.headerHits + n ≤ 255 →
    runBits s (List.replicate n true) = ({ s with headerHits := s.headerHits + n }, []) := by
  induction n with
  | zero => intro s h1 h2; rfl
  | succ k ih =>
    intro s h1 h2
    rw [List.replicate_succ, runBits_cons]
    have hp : processBit s true = ({ s with headerHits := s.headerHits + 1 }, none) := by
      simp [processBit, h1, Nat.mod_eq_of_lt (show s.headerHits + 1 < 256 by omega)]
    rw [hp]
    rw [ih { s with headerHits := s.headerHits + 1 } h1
      (by show s.headerHits + 1 + k ≤ 255; omega)]
    have harith : s.headerHits + 1 + k = s.headerHits + (k + 1) := by omega
    simp [harith]

theorem runBits_short (bs : List Bool) : ∀ s : RxState, s.firstZero = false →
    s.headerHits + bs.length ≤ 9 → (runBits s bs).2 = [] := by
  induction bs with
  | nil => intro s h1 h2; rfl
  | cons b bs ih =>
    intro s h1 h2
    simp only [List.length_cons] at h2
    rw [runBits_cons]
    cases b with
    | true =>
      have hp : processBit s true = ({ s with headerHits := s.headerHits + 1 }, none) := by
        simp [processBit, h1, Nat.mod_eq_of_lt (show s.headerHits + 1 < 256 by omega)]
      rw [hp]
      simpa using ih { s with headerHits := s.headerHits + 1 } h1
        (by show s.headerHits + 1 + bs.length ≤ 9; omega)
    | false =>
      have h10 : s.headerHits < 10 := by omega
      have hp : processBit s false = (resetSync s, none) := by
        simp [processBit, h10]
      rw [hp]
      simpa using ih (resetSync s) rfl
        (by show (0 : Nat) + bs.length ≤ 9; omega)

theorem runBits_fill (bs : List Bool) : ∀ (hh d nb nk : Nat) (m : Nat → Nat),
    10 ≤ hh → nb + bs.length ≤ 7 → nk ≠ 6 →
    runBits ⟨true, hh, d, nb, nk, m⟩ bs =
      (⟨true, hh, packModAcc d bs, nb + bs.length, nk, m⟩, []) := by
  induction bs with
  | nil => intro hh d nb nk m h1 h2 h3; rfl
  | cons b bs ih =>
    intro hh d nb nk m h1 h2 h3
    simp only [List.length_cons] at h2
    rw [runBits_cons, processBit_payload _ _ rfl h1]
    have hmod : (nb + 1) % 256 = nb + 1 := Nat.mod_eq_of_lt (by omega)
    have h8 : ¬ (nb + 1) % 256 = 8 := by rw [hmod]; omega
    have h7 : nb ≠ 7 := by omega
    have ha : add ⟨true, hh, d, nb, nk, m⟩ b =
        (⟨true, hh, (2 * d + bit2nat b) % 256, nb + 1, nk, m⟩, none) := by
      simp [add, h8, hmod, h3, h7]
    rw [ha]
    rw [ih hh ((2 * d + bit2nat b) % 256) (nb + 1) nk m h1 (by omega) h3]
    have harith : nb + 1 + bs.length = nb + (bs.length + 1) := by omega
    simp [harith, packModAcc_cons]

theorem processBit_store (hh d nk : Nat) (m : Nat → Nat) (b : Bool)
    (h1 : 10 ≤ hh) (h4 : nk + 1 < 6) :
    processBit ⟨true, hh, d, 7, nk, m⟩ b =
      (⟨true, hh, (2 * d + bit2nat b) % 256, 0, nk + 1,
        Function.update m nk ((2 * d + bit2nat b) % 256)⟩, none) := by
  rw [processBit_payload _ _ rfl h1]
  have hmod : (nk + 1) % 256 = nk + 1 := Nat.mod_eq_of_lt (by omega)
  have h6 : nk + 1 ≠ 6 := by omega
  simp [add, hmod, h6]

theorem processBit_finish (hh d : Nat) (m : Nat → Nat) (b : Bool) (h1 : 10 ≤ hh) :
    processBit ⟨true, hh, d, 7, 5, m⟩ b =
      (⟨true, hh, (2 * d + bit2nat b) % 256, 0, 6,
        Function.update m 5 ((2 * d + bit2nat b) % 256)⟩,
       some (frameBytes (Function.update m 5 ((2 * d + bit2nat b) % 256)))) := by
  rw [processBit_payload _ _ rfl h1]
  simp [add]

theorem runBits_tail_emit (bs : List Bool) : ∀ (hh d nb : Nat) (m : Nat → Nat),
    10 ≤ hh → nb + bs.length ≤ 7 →
    runBits ⟨true, hh, d, nb, 6, m⟩ bs =
      (⟨true, hh, packModAcc d bs, nb + bs.length, 6, m⟩,
       List.replicate bs.length (frameBytes m)) := by
  induction bs with
  | nil => intro hh d nb m h1 h2; rfl
  | cons b bs ih =>
    intro hh d nb m h1 h2
    simp only [List.length_cons] at h2
    rw [runBits_cons, processBit_payload _ _ rfl h1]
    have hmod : (nb + 1) % 256 = nb + 1 := Nat.mod_eq_of_lt (by omega)
    have h8 : ¬ (nb + 1) % 256 = 8 := by rw [hmod]; omega
    have h7 : nb ≠ 7 := by omega
    have ha : add ⟨true, hh, d, nb, 6, m⟩ b =
        (⟨true, hh, (2 * d + bit2nat b) % 256, nb + 1, 6, m⟩,
         some (frameBytes m)) := by
      simp [add, h8, hmod, h7]
    rw [ha]
    rw [ih hh ((2 * d + bit2nat b) % 256) (nb + 1) m h1 (by omega)]
    have harith : nb + 1 + bs.length = nb + (bs.length + 1) := by omega
    simp [harith, packModAcc_cons, List.replicate_succ]

theorem runBits_byte (bs : List Bool) (hh d nk : Nat) (m : Nat → Nat)
    (h1 : 10 ≤ hh) (h4 : nk + 1 < 6) (h5 : d < 256) (h6 : bs.length = 8) :
    runBits ⟨true, hh, d, 0, nk, m⟩ bs =
      (⟨true, hh, packAcc 0 bs, 0, nk + 1, Function.update m nk (packAcc 0 bs)⟩, []) := by
  have hlt : (bs.take 7).length = 7 := by rw [List.length_take, h6]; omega
  have hld : (bs.drop 7).length = 1 := by rw [List.length_drop, h6]
  obtain ⟨c, hc⟩ := List.length_eq_one.mp hld
  have hval : (2 * packModAcc d (bs.take 7) + bit2nat c) % 256 = packAcc 0 bs := by
    calc (2 * packModAcc d (bs.take 7) + bit2nat c) % 256
        = packModAcc (packModAcc d (bs.take 7)) [c] := rfl
      _ = packModAcc d (bs.take 7 ++ [c]) := (packModAcc_append _ _ _).symm
      _ = packModAcc d bs := by rw [← hc, List.take_append_drop]
      _ = packAcc 0 bs := packModAcc_byte bs d h5 h6
  conv_lhs => rw [← List.take_append_drop 7 bs]
  rw [runBits_append,
    runBits_fill (bs.take 7) hh d 0 nk m h1 (by omega) (by omega), hc]
  simp only [hlt, Nat.zero_add]
  rw [runBits_cons, processBit_store hh (packModAcc d (bs.take 7)) nk m c h1 h4, hval]
  simp [runBits_nil]

theorem runBits_byte_final (bs : List Bool) (hh d : Nat) (m : Nat → Nat)
    (h1 : 10 ≤ hh) (h5 : d < 256) (h6 : bs.length = 8) :
    runBits ⟨true, hh, d, 0, 5, m⟩ bs =
      (⟨true, hh, packAcc 0 bs, 0, 6, Function.update m 5 (packAcc 0 bs)⟩,
       [frameBytes (Function.update m 5 (packAcc 0 bs))]) := by
  have hlt : (bs.take 7).length = 7 := by rw [List.length_take, h6]; omega
  have hld : (bs.drop 7).length = 1 := by rw [List.length_drop, h6]
  obtain ⟨c, hc⟩ := List.length_eq_one.mp hld
  have hval : (2 * packModAcc d (bs.take 7) + bit2nat c) % 256 = packAcc 0 bs := by
    calc (2 * packModAcc d (bs.take 7) + bit2nat c) % 256
        = packModAcc (packModAcc d (bs.take 7)) [c] := rfl
      _ = packModAcc d (bs.take 7 ++ [c]) := (packModAcc_append _ _ _).symm
      _ = packModAcc d bs := by rw [← hc, List.take_append_drop]
      _ = packAcc 0 bs := packModAcc_byte bs d h5 h6
  conv_lhs => rw [← List.take_append_drop 7 bs]
  rw [runBits_append,
    runBits_fill (bs.take 7) hh d 0 5 m h1 (by omega) (by omega), hc]
  simp only [hlt, Nat.zero_add]
  rw [runBits_cons, processBit_finish hh (packModAcc d (bs.take 7)) m c h1, hval]
  simp [runBits_nil]

theorem runBits_header_mk (n hh d nb nk : Nat) (m : Nat → Nat) (h2 : hh + n ≤ 255) :
    runBits ⟨false, hh, d, nb, nk, m⟩ (List.replicate n true) =
      (⟨false, hh + n, d, nb, nk, m⟩, []) := by
  simpa using runBits_header n ⟨false, hh, d, nb, nk, m⟩ rfl h2

theorem processBit_boundary (hh d nk : Nat) (m : Nat → Nat) (h1 : 10 ≤ hh)
    (hnk : nk ≠ 6) :
    processBit ⟨false, hh, d, 6, nk, m⟩ false =
      (⟨true, hh, (2 * d) % 256, 7, nk, m⟩, none) := by
  have h3 : ¬ hh < 10 := by omega
  simp [processBit, h3, add, bit2nat, hnk]

theorem frameBytes_update6 (m : Nat → Nat) (B0 B1 B2 B3 B4 B5 : Nat) :
    frameBytes (Function.update (Function.update (Function.update (Function.update
      (Function.update (Function.update m 0 B0) 1 B1) 2 B2) 3 B3) 4 B4) 5 B5) =
      [B0, B1, B2, B3, B4, B5] := by
  simp [frameBytes, Function.update]

/-- Core decoding result: from a freshly reinitialised synchronizer state with
accumulator residue `d`, a run of `n` header ones (`10 ≤ n ≤ 255`), the
boundary zero and 48 payload bits assemble the frame `assembledFrame d p`,
emitted 8 times: once when byte 5 is stored, and once more by each of the 7
remaining payload bits, because the completion block re-runs on every `add`
call while `nosBytes` stays 6 (the `rxstate = 0` of line 271 being clobbered
by line 252). -/
theorem decode_valid (s : RxState) (n : Nat) (p : List Bool)
    (hfz : s.firstZero = false) (hhh : s.headerHits = 0) (hnb : s.nosBits = 6)
    (hnk : s.nosBytes = 0) (hn1 : 10 ≤ n) (hn2 : n ≤ 255) (hp : p.length = 48) :
    (runBits s (List.replicate n true ++ false :: p)).2 =
      List.replicate 8 (assembledFrame s.dataByte p) := by
  obtain ⟨fz, hh, d, nb, nk, m⟩ := s
  obtain rfl : fz = false := hfz
  obtain rfl : hh = 0 := hhh
  obtain rfl : nb = 6 := hnb
  obtain rfl : nk = 0 := hnk
  obtain ⟨a, t, rfl⟩ : ∃ a t, p = a :: t := by
    cases p with
    | nil => simp at hp
    | cons a t => exact ⟨a, t, rfl⟩
  have ht : t.length = 47 := by simpa using hp
  -- chunk lengths
  have lc1 : (t.take 8).length = 8 := by rw [List.length_take, ht]; omega
  have lc2 : ((t.drop 8).take 8).length = 8 := by
    rw [List.length_take, List.length_drop, ht]; omega
  have lc3 : ((t.drop 16).take 8).length = 8 := by
    rw [List.length_take, List.length_drop, ht]; omega
  have lc4 : ((t.drop 24).take 8).length = 8 := by
    rw [List.length_take, List.length_drop, ht]; omega
  have lc5 : ((t.drop 32).take 8).length = 8 := by
    rw [List.length_take, List.length_drop, ht]; omega
  have lrest : (t.drop 40).length = 7 := by rw [List.length_drop, ht]
  -- decomposition of the payload tail into byte chunks
  have he1 : t.take 8 ++ t.drop 8 = t := List.take_append_drop 8 t
  have he2 : (t.drop 8).take 8 ++ t.drop 16 = t.drop 8 := by
    have : (t.drop 8).drop 8 = t.drop 16 := by rw [List.drop_drop]
    rw [← this, List.take_append_drop]
  have he3 : (t.drop 16).take 8 ++ t.drop 24 = t.drop 16 := by
    have : (t.drop 16).drop 8 = t.drop 24 := by rw [List.drop_drop]
    rw [← this, List.take_append_drop]
  have he4 : (t.drop 24).take 8 ++ t.drop 32 = t.drop 24 := by
    have : (t.drop 24).drop 8 = t.drop 32 := by rw [List.drop_drop]
    rw [← this, List.take_append_drop]
  have he5 : (t.drop 32).take 8 ++ t.drop 40 = t.drop 32 := by
    have : (t.drop 32).drop 8 = t.drop 40 := by rw [List.drop_drop]
    rw [← this, List.take_append_drop]
  have hdecomp : t = t.take 8 ++ ((t.drop 8).take 8 ++ ((t.drop 16).take 8 ++
      ((t.drop 24).take 8 ++ ((t.drop 32).take 8 ++ t.drop 40)))) := by
    rw [he5, he4, he3, he2, he1]
  -- byte values and successive array contents
  have hB0 : (2 * ((2 * d) % 256) + bit2nat a) % 256 = (4 * d + bit2nat a) % 256 := by
    rw [mul_mod_add_mod]
    ring_nf
  have hB1lt : packAcc 0 (t.take 8) < 256 := by
    have := packAcc_lt (t.take 8); rw [lc1] at this; norm_num at this; exact this
  have hB2lt : packAcc 0 ((t.drop 8).take 8) < 256 := by
    have := packAcc_lt ((t.drop 8).take 8); rw [lc2] at this; norm_num at this; exact this
  have hB3lt : packAcc 0 ((t.drop 16).take 8) < 256 := by
    have := packAcc_lt ((t.drop 16).take 8); rw [lc3] at this; norm_num at this; exact this
  have hB4lt : packAcc 0 ((t.drop 24).take 8) < 256 := by
    have := packAcc_lt ((t.drop 24).take 8); rw [lc4] at this; norm_num at this; exact this
  -- run the five payload byte chunks
  have h1run : runBits ⟨true, n, (4 * d + bit2nat a) % 256, 0, 1,
      Function.update m 0 ((4 * d + bit2nat a) % 256)⟩ (t.take 8) =
      (⟨true, n, packAcc 0 (t.take 8), 0, 2,
        Function.update (Function.update m 0 ((4 * d + bit2nat a) % 256)) 1
          (packAcc 0 (t.take 8))⟩, []) :=
    runBits_byte _ n _ 1 _ hn1 (by omega) (Nat.mod_lt _ (by norm_num)) lc1
  have h2run : runBits ⟨true, n, packAcc 0 (t.take 8), 0, 2,
      Function.update (Function.update m 0 ((4 * d + bit2nat a) % 256)) 1
        (packAcc 0 (t.take 8))⟩ ((t.drop 8).take 8) =
      (⟨true, n, packAcc 0 ((t.drop 8).take 8), 0, 3,
        Function.update (Function.update (Function.update m 0
          ((4 * d + bit2nat a) % 256)) 1 (packAcc 0 (t.take 8))) 2
          (packAcc 0 ((t.drop 8).take 8))⟩, []) :=
    runBits_byte _ n _ 2 _ hn1 (by omega) hB1lt lc2
  have h3run : runBits ⟨true, n, packAcc 0 ((t.drop 8).take 8), 0, 3,
      Function.update (Function.update (Function.update m 0
        ((4 * d + bit2nat a) % 256)) 1 (packAcc 0 (t.take 8))) 2
        (packAcc 0 ((t.drop 8).take 8))⟩ ((t.drop 16).take 8) =
      (⟨true, n, packAcc 0 ((t.drop 16).take 8), 0, 4,
        Function.update (Function.update (Function.update (Function.update m 0
          ((4 * d + bit2nat a) % 256)) 1 (packAcc 0 (t.take 8))) 2
          (packAcc 0 ((t.drop 8).take 8))) 3 (packAcc 0 ((t.drop 16).take 8))⟩, []) :=
    runBits_byte _ n _ 3 _ hn1 (by omega) hB2lt lc3
  have h4run : runBits ⟨true, n, packAcc 0 ((t.drop 16).take 8), 0, 4,
      Function.update (Function.update (Function.update (Function.update m 0
        ((4 * d + bit2nat a) % 256)) 1 (packAcc 0 (t.take 8))) 2
        (packAcc 0 ((t.drop 8).take 8))) 3 (packAcc 0 ((t.drop 16).take 8))⟩
      ((t.drop 24).take 8) =
      (⟨true, n, packAcc 0 ((t.drop 24).take 8), 0, 5,
        Function.update (Function.update (Function.update (Function.update
          (Function.update m 0 ((4 * d + bit2nat a) % 256)) 1
          (packAcc 0 (t.take 8))) 2 (packAcc 0 ((t.drop 8).take 8))) 3
          (packAcc 0 ((t.drop 16).take 8))) 4 (packAcc 0 ((t.drop 24).take 8))⟩, []) :=
    runBits_byte _ n _ 4 _ hn1 (by omega) hB3lt lc4
  have h5run : runBits ⟨true, n, packAcc 0 ((t.drop 24).take 8), 0, 5,
      Function.update (Function.update (Function.update (Function.update
        (Function.update m 0 ((4 * d + bit2nat a) % 256)) 1
        (packAcc 0 (t.take 8))) 2 (packAcc 0 ((t.drop 8).take 8))) 3
        (packAcc 0 ((t.drop 16).take 8))) 4 (packAcc 0 ((t.drop 24).take 8))⟩
      ((t.drop 32).take 8) =
      (⟨true, n, packAcc 0 ((t.drop 32).take 8), 0, 6,
        Function.update (Function.update (Function.update
        (Function.update (Function.update (Function.update m 0
        ((4 * d + bit2nat a) % 256)) 1 (packAcc 0 (t.take 8))) 2
        (packAcc 0 ((t.drop 8).take 8))) 3 (packAcc 0 ((t.drop 16).take 8))) 4
        (packAcc 0 ((t.drop 24).take 8))) 5 (packAcc 0 ((t.drop 32).take 8))⟩,
       [frameBytes (Function.update (Function.update (Function.update
        (Function.update (Function.update (Function.update m 0
        ((4 * d + bit2nat a) % 256)) 1 (packAcc 0 (t.take 8))) 2
        (packAcc 0 ((t.drop 8).take 8))) 3 (packAcc 0 ((t.drop 16).take 8))) 4
        (packAcc 0 ((t.drop 24).take 8))) 5 (packAcc 0 ((t.drop 32).take 8)))]) :=
    runBits_byte_final _ n _ _ hn1 hB4lt lc5
  have hrest : (runBits ⟨true, n, packAcc 0 ((t.drop 32).take 8), 0, 6,
      Function.update (Function.update (Function.update
        (Function.update (Function.update (Function.update m 0
        ((4 * d + bit2nat a) % 256)) 1 (packAcc 0 (t.take 8))) 2
        (packAcc 0 ((t.drop 8).take 8))) 3 (packAcc 0 ((t.drop 16).take 8))) 4
        (packAcc 0 ((t.drop 24).take 8))) 5 (packAcc 0 ((t.drop 32).take 8))⟩ (t.drop 40)).2 =
      List.replicate 7 (frameBytes (Function.update (Function.update (Function.update
        (Function.update (Function.update (Function.update m 0
        ((4 * d + bit2nat a) % 256)) 1 (packAcc 0 (t.take 8))) 2
        (packAcc 0 ((t.drop 8).take 8))) 3 (packAcc 0 ((t.drop 16).take 8))) 4
        (packAcc 0 ((t.drop 24).take 8))) 5 (packAcc 0 ((t.drop 32).take 8)))) := by
    rw [runBits_tail_emit (t.drop 40) n (packAcc 0 ((t.drop 32).take 8)) 0
      (Function.update (Function.update (Function.update
        (Function.update (Function.update (Function.update m 0
        ((4 * d + bit2nat a) % 256)) 1 (packAcc 0 (t.take 8))) 2
        (packAcc 0 ((t.drop 8).take 8))) 3 (packAcc 0 ((t.drop 16).take 8))) 4
        (packAcc 0 ((t.drop 24).take 8))) 5 (packAcc 0 ((t.drop 32).take 8))) hn1 (by simp [lrest]), lrest]
  -- assemble the tail run
  have hseg5 : (runBits ⟨true, n, packAcc 0 ((t.drop 24).take 8), 0, 5,
      Function.update (Function.update (Function.update (Function.update
        (Function.update m 0 ((4 * d + bit2nat a) % 256)) 1
        (packAcc 0 (t.take 8))) 2 (packAcc 0 ((t.drop 8).take 8))) 3
        (packAcc 0 ((t.drop 16).take 8))) 4 (packAcc 0 ((t.drop 24).take 8))⟩
      ((t.drop 32).take 8 ++ t.drop 40)).2 =
      frameBytes (Function.update (Function.update (Function.update
        (Function.update (Function.update (Function.update m 0
        ((4 * d + bit2nat a) % 256)) 1 (packAcc 0 (t.take 8))) 2
        (packAcc 0 ((t.drop 8).take 8))) 3 (packAcc 0 ((t.drop 16).take 8))) 4
        (packAcc 0 ((t.drop 24).take 8))) 5 (packAcc 0 ((t.drop 32).take 8))) ::
      List.replicate 7 (frameBytes (Function.update (Function.update (Function.update
        (Function.update (Function.update (Function.update m 0
        ((4 * d + bit2nat a) % 256)) 1 (packAcc 0 (t.take 8))) 2
        (packAcc 0 ((t.drop 8).take 8))) 3 (packAcc 0 ((t.drop 16).take 8))) 4
        (packAcc 0 ((t.drop 24).take 8))) 5 (packAcc 0 ((t.drop 32).take 8)))) := by
    rw [runBits_append, h5run]
    simp [hrest]
  have hseg4 : (runBits ⟨true, n, packAcc 0 ((t.drop 16).take 8), 0, 4,
      Function.update (Function.update (Function.update (Function.update m 0
        ((4 * d + bit2nat a) % 256)) 1 (packAcc 0 (t.take 8))) 2
        (packAcc 0 ((t.drop 8).take 8))) 3 (packAcc 0 ((t.drop 16).take 8))⟩
      ((t.drop 24).take 8 ++ ((t.drop 32).take 8 ++ t.drop 40))).2 =
      frameBytes (Function.update (Function.update (Function.update
        (Function.update (Function.update (Function.update m 0
        ((4 * d + bit2nat a) % 256)) 1 (packAcc 0 (t.take 8))) 2
        (packAcc 0 ((t.drop 8).take 8))) 3 (packAcc 0 ((t.drop 16).take 8))) 4
        (packAcc 0 ((t.drop 24).take 8))) 5 (packAcc 0 ((t.drop 32).take 8))) ::
      List.replicate 7 (frameBytes (Function.update (Function.update (Function.update
        (Function.update (Function.update (Function.update m 0
        ((4 * d + bit2nat a) % 256)) 1 (packAcc 0 (t.take 8))) 2
        (packAcc 0 ((t.drop 8).take 8))) 3 (packAcc 0 ((t.drop 16).take 8))) 4
        (packAcc 0 ((t.drop 24).take 8))) 5 (packAcc 0 ((t.drop 32).take 8)))) := by
    rw [runBits_append, h4run]
    simpa using hseg5
  have hseg3 : (runBits ⟨true, n, packAcc 0 ((t.drop 8).take 8), 0, 3,
      Function.update (Function.update (Function.update m 0
        ((4 * d + bit2nat a) % 256)) 1 (packAcc 0 (t.take 8))) 2
        (packAcc 0 ((t.drop 8).take 8))⟩
      ((t.drop 16).take 8 ++ ((t.drop 24).take 8 ++ ((t.drop 32).take 8 ++ t.drop 40)))).2 =
      frameBytes (Function.update (Function.update (Function.update
        (Function.update (Function.update (Function.update m 0
        ((4 * d + bit2nat a) % 256)) 1 (packAcc 0 (t.take 8))) 2
        (packAcc 0 ((t.drop 8).take 8))) 3 (packAcc 0 ((t.drop 16).take 8))) 4
        (packAcc 0 ((t.drop 24).take 8))) 5 (packAcc 0 ((t.drop 32).take 8))) ::
      List.replicate 7 (frameBytes (Function.update (Function.update (Function.update
        (Function.update (Function.update (Function.update m 0
        ((4 * d + bit2nat a) % 256)) 1 (packAcc 0 (t.take 8))) 2
        (packAcc 0 ((t.drop 8).take 8))) 3 (packAcc 0 ((t.drop 16).take 8))) 4
        (packAcc 0 ((t.drop 24).take 8))) 5 (packAcc 0 ((t.drop 32).take 8)))) := by
    rw [runBits_append, h3run]
    simpa using hseg4
  have hseg2 : (runBits ⟨true, n, packAcc 0 (t.take 8), 0, 2,
      Function.update (Function.update m 0 ((4 * d + bit2nat a) % 256)) 1
        (packAcc 0 (t.take 8))⟩
      ((t.drop 8).take 8 ++ ((t.drop 16).take 8 ++ ((t.drop 24).take 8 ++
        ((t.drop 32).take 8 ++ t.drop 40))))).2 =
      frameBytes (Function.update (Function.update (Function.update
        (Function.update (Function.update (Function.update m 0
        ((4 * d + bit2nat a) % 256)) 1 (packAcc 0 (t.take 8))) 2
        (packAcc 0 ((t.drop 8).take 8))) 3 (packAcc 0 ((t.drop 16).take 8))) 4
        (packAcc 0 ((t.drop 24).take 8))) 5 (packAcc 0 ((t.drop 32).take 8))) ::
      List.replicate 7 (frameBytes (Function.update (Function.update (Function.update
        (Function.update (Function.update (Function.update m 0
        ((4 * d + bit2nat a) % 256)) 1 (packAcc 0 (t.take 8))) 2
        (packAcc 0 ((t.drop 8).take 8))) 3 (packAcc 0 ((t.drop 16).take 8))) 4
        (packAcc 0 ((t.drop 24).take 8))) 5 (packAcc 0 ((t.drop 32).take 8)))) := by
    rw [runBits_append, h2run]
    simpa using hseg3
  have hseg1 : (runBits ⟨true, n, (4 * d + bit2nat a) % 256, 0, 1,
      Function.update m 0 ((4 * d + bit2nat a) % 256)⟩ t).2 =
      frameBytes (Function.update (Function.update (Function.update
        (Function.update (Function.update (Function.update m 0
        ((4 * d + bit2nat a) % 256)) 1 (packAcc 0 (t.take 8))) 2
        (packAcc 0 ((t.drop 8).take 8))) 3 (packAcc 0 ((t.drop 16).take 8))) 4
        (packAcc 0 ((t.drop 24).take 8))) 5 (packAcc 0 ((t.drop 32).take 8))) ::
      List.replicate 7 (frameBytes (Function.update (Function.update (Function.update
        (Function.update (Function.update (Function.update m 0
        ((4 * d + bit2nat a) % 256)) 1 (packAcc 0 (t.take 8))) 2
        (packAcc 0 ((t.drop 8).take 8))) 3 (packAcc 0 ((t.drop 16).take 8))) 4
        (packAcc 0 ((t.drop 24).take 8))) 5 (packAcc 0 ((t.drop 32).take 8)))) := by
    conv_lhs => rw [hdecomp]
    rw [runBits_append, h1run]
    simpa using hseg2
  -- the first payload bit (completing frame byte 0)
  have hstepa : processBit ⟨true, n, (2 * d) % 256, 7, 0, m⟩ a =
      (⟨true, n, (4 * d + bit2nat a) % 256, 0, 1,
        Function.update m 0 ((4 * d + bit2nat a) % 256)⟩, none) := by
    have hs := processBit_store n ((2 * d) % 256) 0 m a hn1 (by norm_num)
    rw [hB0] at hs
    exact hs
  have htail1 : (runBits ⟨true, n, (2 * d) % 256, 7, 0, m⟩ (a :: t)).2 =
      frameBytes (Function.update (Function.update (Function.update
        (Function.update (Function.update (Function.update m 0
        ((4 * d + bit2nat a) % 256)) 1 (packAcc 0 (t.take 8))) 2
        (packAcc 0 ((t.drop 8).take 8))) 3 (packAcc 0 ((t.drop 16).take 8))) 4
        (packAcc 0 ((t.drop 24).take 8))) 5 (packAcc 0 ((t.drop 32).take 8))) ::
      List.replicate 7 (frameBytes (Function.update (Function.update (Function.update
        (Function.update (Function.update (Function.update m 0
        ((4 * d + bit2nat a) % 256)) 1 (packAcc 0 (t.take 8))) 2
        (packAcc 0 ((t.drop 8).take 8))) 3 (packAcc 0 ((t.drop 16).take 8))) 4
        (packAcc 0 ((t.drop 24).take 8))) 5 (packAcc 0 ((t.drop 32).take 8)))) := by
    rw [runBits_cons, hstepa]
    simpa using hseg1
  -- the boundary zero
  have hstep0 : processBit ⟨false, n, d, 6, 0, m⟩ false =
      (⟨true, n, (2 * d) % 256, 7, 0, m⟩, none) :=
    processBit_boundary n d 0 m hn1 (by norm_num)
  have htail0 : (runBits ⟨false, n, d, 6, 0, m⟩ (false :: a :: t)).2 =
      frameBytes (Function.update (Function.update (Function.update
        (Function.update (Function.update (Function.update m 0
        ((4 * d + bit2nat a) % 256)) 1 (packAcc 0 (t.take 8))) 2
        (packAcc 0 ((t.drop 8).take 8))) 3 (packAcc 0 ((t.drop 16).take 8))) 4
        (packAcc 0 ((t.drop 24).take 8))) 5 (packAcc 0 ((t.drop 32).take 8))) ::
      List.replicate 7 (frameBytes (Function.update (Function.update (Function.update
        (Function.update (Function.update (Function.update m 0
        ((4 * d + bit2nat a) % 256)) 1 (packAcc 0 (t.take 8))) 2
        (packAcc 0 ((t.drop 8).take 8))) 3 (packAcc 0 ((t.drop 16).take 8))) 4
        (packAcc 0 ((t.drop 24).take 8))) 5 (packAcc 0 ((t.drop 32).take 8)))) := by
    rw [runBits_cons, hstep0]
    simpa using htail1
  -- the header, then assemble everything
  have hhead : runBits ⟨false, 0, d, 6, 0, m⟩ (List.replicate n true) =
      (⟨false, n, d, 6, 0, m⟩, []) := by
    simpa using runBits_header_mk n 0 d 6 0 m (by omega)
  show (runBits ⟨false, 0, d, 6, 0, m⟩
      (List.replicate n true ++ false :: a :: t)).2 =
    List.replicate 8 (assembledFrame d (a :: t))
  rw [runBits_append, hhead]
  simp only [List.nil_append]
  rw [htail0, frameBytes_update6]
  rfl

/-! ### Claim C1: header/frame assembly -/

/-- C1, counterexample: for the sequence of 10 header ones, the boundary zero
and 48 one-payload-bits, the claim predicts exactly one frame, namely
`[127, 255, 255, 255, 255, 255]` (bytes packed MSB-first from 8 consecutive
payload bits starting at the first zero); the code instead emits
`[1, 255, 255, 255, 255, 255]` eight times: byte 0 is completed after only
two appended bits because `nosBits` restarts at 6 (so the frame is offset
two bits and byte 0 keeps six stale accumulator bits), and the completion
block re-runs on each of the last 7 payload bits because the `rxstate = 0`
of line 271 is clobbered by line 252 and nothing is reinitialised. -/
theorem c1_frame_assembly_counterexample :
    (runBits initRx (List.replicate 10 true ++ false :: List.replicate 48 true)).2 =
      List.replicate 8 [1, 255, 255, 255, 255, 255] ∧
    (runBits initRx (List.replicate 10 true ++ false :: List.replicate 48 true)).2 ≠
      [[127, 255, 255, 255, 255, 255]] := by
  constructor
  · decide
  · decide

/-- C1, amended: fed 10-255 resolved header ones (the header counter is an
8-bit byte), then exactly one zero, then 48 payload bits, the assembler from
a freshly reinitialised state with accumulator residue `d` assembles the
6-byte frame `assembledFrame d p` — byte 0 is `(4*d + p_0) mod 256` (six
stale accumulator bits, the boundary zero and the first payload bit), bytes
1-5 pack payload bits 2-41 MSB-first — and hands it to the completion block
8 times, not once: when byte 5 is stored and again on each of the remaining
7 payload bits, since no state is reinitialised after a completed frame. -/
theorem c1_frame_assembly_amended (s : RxState) (n : Nat) (p : List Bool)
    (hfz : s.firstZero = false) (hhh : s.headerHits = 0) (hnb : s.nosBits = 6)
    (hnk : s.nosBytes = 0) (hn1 : 10 ≤ n) (hn2 : n ≤ 255) (hp : p.length = 48) :
    (runBits s (List.replicate n true ++ false :: p)).2 =
      List.replicate 8 (assembledFrame s.dataByte p) :=
  decode_valid s n p hfz hhh hnb hnk hn1 hn2 hp

/-- C1, witness: the amended theorem instantiated at the program start state
and an all-ones payload. -/
theorem c1_frame_assembly_witness :
    (runBits initRx (List.replicate 10 true ++ false :: List.replicate 48 true)).2 =
      List.replicate 8 (assembledFrame initRx.dataByte (List.replicate 48 true)) :=
  c1_frame_assembly_amended initRx 10 (List.replicate 48 true) rfl rfl rfl rfl
    (by norm_num) (by norm_num) (by simp)

/-! ### Claim C4: premature zero resets the synchronizer -/

/-- C4: a resolved zero arriving while fewer than 10 header ones are counted
produces no frame and resets the synchronizer state (first-zero flag, header
and byte counters reinitialised by the case-0 restart, which this path does
reach because it breaks out of case 4 before line 252), and a subsequent
valid header run still decodes correctly into its frame — the same output,
8 emissions of `assembledFrame`, that an unfaulted run produces (the
8-fold re-emission is the completion-block re-run recorded under C1). -/
theorem c4_premature_zero (s : RxState) (n : Nat) (p : List Bool)
    (hfz : s.firstZero = false) (hh : s.headerHits < 10)
    (hn1 : 10 ≤ n) (hn2 : n ≤ 255) (hp : p.length = 48) :
    processBit s false = (resetSync s, none) ∧
    (runBits s (false :: (List.replicate n true ++ false :: p))).2 =
      List.replicate 8 (assembledFrame s.dataByte p) := by
  have hstep : processBit s false = (resetSync s, none) := by
    simp [processBit, hh]
  refine ⟨hstep, ?_⟩
  rw [runBits_cons, hstep]
  simpa using decode_valid (resetSync s) n p rfl rfl rfl rfl hn1 hn2 hp

/-- C4, witness: the theorem instantiated at the program start state, a
premature zero, then a valid header and an all-zero payload. -/
theorem c4_premature_zero_witness :
    processBit initRx false = (resetSync initRx, none) ∧
    (runBits initRx (false :: (List.replicate 10 true ++ false ::
        List.replicate 48 false))).2 =
      List.replicate 8 (assembledFrame initRx.dataByte (List.replicate 48 false)) :=
  c4_premature_zero initRx 10 (List.replicate 48 false) rfl (by decide)
    (by norm_num) (by norm_num) (by simp)

/-! ### Claim C10: byte-counter safety -/

/-- C10: the claimed invariant is FALSE of the program. Because the
`rxstate = 0` written in `add` on frame completion (line 271) is clobbered
by the unconditional `rxstate = 1` of `loop` case 4 (line 252), nothing is
reinitialised after a completed frame: from program start, 10 header ones,
the boundary zero and 57 further payload bits drive a byte store at
`manchester[6]` while `nosBytes` equals 6 (refuting `nosBytes < 6` at the
moment of a store) and then a byte store at `manchester[7]` — outside the
7-byte array — after which `nosBytes` is 8. Evaluated here on the faithful
model at that concrete input (all-one payload bits, so both stored bytes
are 255, where those cells held 0 at program start). -/
theorem c10_nosBytes_safety_violation :
    ((runBits initRx (List.replicate 10 true ++ false ::
        List.replicate 57 true)).1).nosBytes = 8 ∧
    ((runBits initRx (List.replicate 10 true ++ false ::
        List.replicate 57 true)).1).manchester 6 = 255 ∧
    ((runBits initRx (List.replicate 10 true ++ false ::
        List.replicate 57 true)).1).manchester 7 = 255 ∧
    initRx.manchester 6 = 0 ∧ initRx.manchester 7 = 0 := by
  refine ⟨by decide, by decide, by decide, by decide, by decide⟩

/-! ### Channel validator characterisation -/

theorem saveReading_spec (ch : ChState) (stnId t h : Int) (now : Nat)
    (h0 : 0 ≤ stnId) (h7 : stnId ≤ 7) :
    ((saveReading ch stnId t h now).2.isSome ↔ sendCond ch stnId.toNat t h ∧
       (ch.chLastRecv stnId.toNat > now ∨
        usub32 now (ch.chLastRecv stnId.toNat) > 1000)) ∧
    (sendCond ch stnId.toNat t h →
       (saveReading ch stnId t h now).1.chTemp stnId.toNat = t ∧
       (saveReading ch stnId t h now).1.chHum stnId.toNat = h) ∧
    (¬ sendCond ch stnId.toNat t h →
       (saveReading ch stnId t h now).1 = ch ∧
       (saveReading ch stnId t h now).2 = none) ∧
    ((saveReading ch stnId t h now).2.isSome →
       (saveReading ch stnId t h now).1.chLastRecv stnId.toNat = now) ∧
    ((saveReading ch stnId t h now).2 = none →
       (saveReading ch stnId t h now).1.chLastRecv stnId.toNat =
         ch.chLastRecv stnId.toNat) := by
  unfold saveReading
  rw [if_pos (⟨h0, h7⟩ : 0 ≤ stnId ∧ stnId ≤ 7)]
  by_cases hsc : sendCond ch stnId.toNat t h
  · by_cases hrate : ch.chLastRecv stnId.toNat > now ∨
        usub32 now (ch.chLastRecv stnId.toNat) > 1000
    · simp [hsc, hrate, Function.update_same]
    · simp [hsc, hrate, Function.update_same]
  · simp [hsc]

/-! ### Claim C2: stored fields versus forwarding -/

/-- C2, counterexample: at program start, a first reading on channel 0 at
time 500 ms is accepted but suppressed by the rate limiter (no forward), yet
the stored raw temperature changes from the sentinel 720 to 800 — the claim
that a non-forwarded reading leaves all three stored fields unchanged is
false. -/
theorem c2_store_update_counterexample :
    (saveReading initCh 0 800 50 500).2 = none ∧
    (saveReading initCh 0 800 50 500).1.chTemp 0 = 800 ∧
    initCh.chTemp 0 = 720 := by
  refine ⟨by decide, by decide, by decide⟩

/-- C2, amended: the stored raw temperature and humidity of the addressed
channel are updated exactly when the reading is accepted (marked for send),
even if the rate limiter then suppresses the forward; the last-send
timestamp is updated exactly when the reading is actually forwarded; a
rejected reading leaves the whole channel table unchanged and is not
forwarded. -/
theorem c2_store_update_amended (ch : ChState) (stnId t h : Int) (now : Nat)
    (h0 : 0 ≤ stnId) (h7 : stnId ≤ 7) :
    (sendCond ch stnId.toNat t h →
       (saveReading ch stnId t h now).1.chTemp stnId.toNat = t ∧
       (saveReading ch stnId t h now).1.chHum stnId.toNat = h) ∧
    (¬ sendCond ch stnId.toNat t h →
       (saveReading ch stnId t h now).1 = ch ∧
       (saveReading ch stnId t h now).2 = none) ∧
    ((saveReading ch stnId t h now).2.isSome →
       (saveReading ch stnId t h now).1.chLastRecv stnId.toNat = now) ∧
    ((saveReading ch stnId t h now).2 = none →
       (saveReading ch stnId t h now).1.chLastRecv stnId.toNat =
         ch.chLastRecv stnId.toNat) := by
  have hs := saveReading_spec ch stnId t h now h0 h7
  exact ⟨hs.2.1, hs.2.2.1, hs.2.2.2.1, hs.2.2.2.2⟩

/-- C2, witness: a forwarded reading on channel 1 stores its temperature,
humidity and timestamp. -/
theorem c2_store_update_witness :
    (saveReading initCh 1 900 40 5000).1.chTemp 1 = 900 ∧
    (saveReading initCh 1 900 40 5000).1.chHum 1 = 40 ∧
    (saveReading initCh 1 900 40 5000).1.chLastRecv 1 = 5000 := by
  have hw := c2_store_update_amended initCh 1 900 40 5000 (by norm_num) (by norm_num)
  exact ⟨(hw.1 (by decide)).1, (hw.1 (by decide)).2, hw.2.2.1 (by decide)⟩

/-! ### Claim C3: rate limiting -/

/-- C3, counterexample: at program start (stored last-send time 0), a first
reading on channel 0 at time exactly 1000 ms is marked for send, the stored
timestamp is not in the future, and exactly 1000 ms have elapsed — the claim
("at least 1000 ms") predicts a forward, but the code's strict comparison
`(now - chLastRecv) > 1000` suppresses it. -/
theorem c3_rate_limit_counterexample :
    sendCond initCh 0 800 50 ∧ initCh.chLastRecv 0 ≤ 1000 ∧
    1000 - initCh.chLastRecv 0 ≥ 1000 ∧
    (saveReading initCh 0 800 50 1000).2 = none := by
  refine ⟨by decide, by decide, by decide, by decide⟩

/-- C3, amended: a reading is forwarded if and only if it is marked for send
and either the stored last-send timestamp is in the future (wraparound) or
strictly more than 1000 ms have elapsed since the last forward; at exactly
1000 ms the reading is suppressed. -/
theorem c3_rate_limit_amended (ch : ChState) (stnId t h : Int) (now : Nat)
    (h0 : 0 ≤ stnId) (h7 : stnId ≤ 7) (hnow : now < 2 ^ 32) :
    (ch.chLastRecv stnId.toNat ≤ now →
      ((saveReading ch stnId t h now).2.isSome ↔
        sendCond ch stnId.toNat t h ∧ now - ch.chLastRecv stnId.toNat > 1000)) ∧
    (ch.chLastRecv stnId.toNat > now →
      ((saveReading ch stnId t h now).2.isSome ↔ sendCond ch stnId.toNat t h)) := by
  have hs := (saveReading_spec ch stnId t h now h0 h7).1
  constructor
  · intro hle
    rw [hs]
    have hu : usub32 now (ch.chLastRecv stnId.toNat) =
        now - ch.chLastRecv stnId.toNat := by
      unfold usub32
      have he : now + 2 ^ 32 - ch.chLastRecv stnId.toNat =
          (now - ch.chLastRecv stnId.toNat) + 2 ^ 32 := by omega
      rw [he, Nat.add_mod_right]
      exact Nat.mod_eq_of_lt (by omega)
    rw [hu]
    constructor
    · rintro ⟨hsc, hr | hr⟩
      · omega
      · exact ⟨hsc, hr⟩
    · rintro ⟨hsc, hr⟩
      exact ⟨hsc, Or.inr hr⟩
  · intro hgt
    rw [hs]
    simp [hgt]

/-- C3, witness: 1001 ms after program start the first reading on channel 0
is forwarded. -/
theorem c3_rate_limit_witness : (saveReading initCh 0 800 50 1001).2.isSome := by
  have hw := c3_rate_limit_amended initCh 0 800 50 1001 (by norm_num) (by norm_num)
    (by norm_num)
  exact (hw.1 (by decide)).mpr ⟨by decide, by decide⟩

/-! ### Claim C5: frame gate -/

/-- C5: a completed frame is handed to the channel validator if and only if
its sensor tag (byte 1) equals 0x45 and its raw humidity (byte 5) is at most
100; every other frame is dropped silently, with no output and no change to
the channel table. -/
theorem c5_frame_gate (ch : ChState) (m : List Nat) (now : Nat) :
    (¬ (m.getD 1 0 = 0x45 ∧ m.getD 5 0 ≤ 100) → frameHandle ch m now = (ch, none)) ∧
    ((m.getD 1 0 = 0x45 ∧ m.getD 5 0 ≤ 100) →
      frameHandle ch m now = saveReading ch (stnIdOf m) (newtempOf m)
        (newhumOf m) now) := by
  constructor
  · intro hn
    unfold frameHandle
    rw [if_neg (by simpa [newhumOf] using hn)]
  · intro hy
    unfold frameHandle
    rw [if_pos (by simpa [newhumOf] using hy)]

/-- C5, witness: a frame with valid sensor tag but humidity 200 is dropped
with no state change. -/
theorem c5_frame_gate_witness :
    frameHandle initCh [253, 69, 79, 4, 75, 200] 0 = (initCh, none) :=
  (c5_frame_gate initCh [253, 69, 79, 4, 75, 200] 0).1 (by decide)

/-! ### Claim C6: field extraction -/

/-- C6: for a 6-byte frame, the extracted channel id is the 3-bit field in
bits 4-6 of byte 3 (hence below 8), the raw temperature combines the low 3
bits of byte 3 with all of byte 4, and the raw humidity is byte 5
verbatim. -/
theorem c6_field_extraction (b0 b1 b2 b3 b4 b5 : Nat) (h3 : b3 < 256) :
    stnIdOf [b0, b1, b2, b3, b4, b5] = b3 / 16 % 8 ∧
    stnIdOf [b0, b1, b2, b3, b4, b5] < 8 ∧
    newtempOf [b0, b1, b2, b3, b4, b5] = b3 % 8 * 256 + b4 ∧
    newhumOf [b0, b1, b2, b3, b4, b5] = b5 := by
  have hland112 : ∀ x < 256, (x &&& 112) / 16 = x / 16 % 8 := by decide
  have hland7 : ∀ x < 256, x &&& 7 = x % 8 := by decide
  refine ⟨?_, ?_, ?_, rfl⟩
  · show (b3 &&& 112) / 16 = b3 / 16 % 8
    exact hland112 b3 h3
  · show (b3 &&& 112) / 16 < 8
    rw [hland112 b3 h3]
    exact Nat.mod_lt _ (by norm_num)
  · show (b3 &&& 7) * 256 + b4 = b3 % 8 * 256 + b4
    rw [hland7 b3 h3]

/-- C6, witness: the extraction on the documented sample frame
`FD 45 4F 04 4B 0B` (channel 0, raw temperature 1099, humidity 11). -/
theorem c6_field_extraction_witness :
    stnIdOf [253, 69, 79, 4, 75, 11] = 4 / 16 % 8 ∧
    stnIdOf [253, 69, 79, 4, 75, 11] < 8 ∧
    newtempOf [253, 69, 79, 4, 75, 11] = 4 % 8 * 256 + 75 ∧
    newhumOf [253, 69, 79, 4, 75, 11] = 11 :=
  c6_field_extraction 253 69 79 4 75 11 (by norm_num)

/-! ### Claim C7: delta plausibility filter -/

/-- C7: for a channel whose stored raw temperature is not the sentinel 720, a
new reading is accepted and marked for send exactly when the temperature
delta lies strictly between -20 and 20 and the humidity delta strictly
between -5 and 5; a rejected reading leaves the whole channel table
unchanged and is not forwarded. -/
theorem c7_delta_validator (ch : ChState) (stnId t h : Int) (now : Nat)
    (h0 : 0 ≤ stnId) (h7 : stnId ≤ 7) (hsent : ch.chTemp stnId.toNat ≠ 720) :
    (sendCond ch stnId.toNat t h ↔
      (-20 < t - ch.chTemp stnId.toNat ∧ t - ch.chTemp stnId.toNat < 20 ∧
       -5 < h - ch.chHum stnId.toNat ∧ h - ch.chHum stnId.toNat < 5)) ∧
    (¬ sendCond ch stnId.toNat t h →
      saveReading ch stnId t h now = (ch, none)) := by
  constructor
  · unfold sendCond
    constructor
    · rintro (hc | ⟨⟨hA, hB⟩, ⟨hC, hD⟩⟩)
      · exact absurd hc hsent
      · exact ⟨hB, hA, hD, hC⟩
    · rintro ⟨hA, hB, hC, hD⟩
      exact Or.inr ⟨⟨hB, hA⟩, ⟨hD, hC⟩⟩
  · intro hnsc
    have hs := (saveReading_spec ch stnId t h now h0 h7).2.2.1 hnsc
    exact Prod.ext hs.1 hs.2

/-- C7, witness: with stored reading (1000, 50), the reading (1021, 52) has
temperature delta 21 and is rejected with no state change and no forward. -/
theorem c7_delta_validator_witness :
    saveReading chExample 0 1021 52 5000 = (chExample, none) :=
  (c7_delta_validator chExample 0 1021 52 5000 (by norm_num) (by norm_num)
    (by decide)).2 (by decide)

/-! ### Claim C8: sentinel baseline -/

/-- C8: for a channel whose stored raw temperature equals the sentinel 720,
any new reading is accepted unconditionally (marked for send) and stored as
the channel's baseline temperature and humidity. -/
theorem c8_sentinel_accept (ch : ChState) (stnId t h : Int) (now : Nat)
    (h0 : 0 ≤ stnId) (h7 : stnId ≤ 7) (hsent : ch.chTemp stnId.toNat = 720) :
    sendCond ch stnId.toNat t h ∧
    (saveReading ch stnId t h now).1.chTemp stnId.toNat = t ∧
    (saveReading ch stnId t h now).1.chHum stnId.toNat = h := by
  have hsc : sendCond ch stnId.toNat t h := Or.inl hsent
  have hs := saveReading_spec ch stnId t h now h0 h7
  exact ⟨hsc, (hs.2.1 hsc).1, (hs.2.1 hsc).2⟩

/-- C8, witness: at program start any reading on channel 3 is accepted and
stored. -/
theorem c8_sentinel_accept_witness :
    sendCond initCh 3 1234 77 ∧
    (saveReading initCh 3 1234 77 0).1.chTemp 3 = 1234 ∧
    (saveReading initCh 3 1234 77 0).1.chHum 3 = 77 :=
  c8_sentinel_accept initCh 3 1234 77 0 (by norm_num) (by norm_num) rfl

/-! ### Claim C9: sink conversion -/

/-- C9: every forwarded reading reaches the sink as the triple of 1-indexed
channel number `stnId + 1`, Celsius temperature `0.0556 * (raw - 720)`
(modelled as an exact rational) and the raw humidity unchanged; rendered to
one decimal, raw temperature 1099 reads 21.1 degrees C. -/
theorem c9_sink_conversion :
    (∀ (ch : ChState) (stnId t h : Int) (now : Nat) (out : Output),
      (saveReading ch stnId t h now).2 = some out →
      out.channel = stnId + 1 ∧ out.tempC = 556 / 10000 * ((t : Rat) - 720) ∧
      out.hum = h) ∧
    round1Dec (556 / 10000 * ((1099 : Rat) - 720)) = 211 / 10 := by
  constructor
  · intro ch stnId t h now out hout
    simp only [saveReading] at hout
    split_ifs at hout <;>
      (dsimp only at hout; rw [Option.some.injEq] at hout; rw [← hout];
        exact ⟨rfl, rfl, rfl⟩)
  · unfold round1Dec
    norm_num [round_eq]

/-- C9, witness: the first reading (1099, 11) on channel 0 at 2000 ms is
forwarded as channel 1, exact temperature `556/10000 * 379`, humidity 11. -/
theorem c9_sink_conversion_witness :
    outEx.channel = (0 : Int) + 1 ∧
    outEx.tempC = 556 / 10000 * (((1099 : Int) : Rat) - 720) ∧
    outEx.hum = (11 : Int) :=
  c9_sink_conversion.1 initCh 0 1099 11 2000 outEx (by rfl)
